import Mathlib

/-!
# Verification of the Save-Articles-Bot content pipeline

Shallow embedding, in Lean 4, of the text-processing core of the
Save-Articles-Bot repository: the extractive summarizer, the keyword
categorizer, the fetch-retry loop, the paragraph-fallback extractor, the
user-scoped record store and the summary cache.  Python text is modelled as
`List Char` (Python strings are sequences of code points).  Python's
floating-point score arithmetic is modelled exactly, by integer scores scaled
by 100; every property proved below is invariant under that positive scaling
and independent of the rounding of the two float constants involved (`1.5`
and `1.2`).  Python string lowering is modelled on
the ASCII and Latin-1 ranges, which agree with `str.lower` on every character
occurring in the embedded literals.
-/

set_option maxRecDepth 100000

namespace SaveArticles

/-- Python text is a sequence of code points. -/
abbrev Str := List Char

/-- ASCII whitespace, modelling the characters Python's regex class `\s` and
`str.strip`/`str.split` treat as whitespace on the inputs in play. -/
def isSpaceC (c : Char) : Bool :=
  c == ' ' || c == '\t' || c == '\n' || c == '\r' || c == '\u000B' || c == '\u000C'

/-- Sentence punctuation of the regex class `[.!?]` in `_split_sentences`. -/
def isPunctC (c : Char) : Bool :=
  c == '.' || c == '!' || c == '?'

/-- Word characters of the regex class `\w`, modelled on ASCII (the inputs of
every concrete evaluation below are ASCII). -/
def isWordChar (c : Char) : Bool :=
  c.isAlphanum || c == '_'

/-- Simple lowercasing: ASCII `A`-`Z`, the Latin-1 uppercase range, and
`U+0178` (which appears in the source's double-encoded literals and which
Python lowers to `U+00FF`).  Agrees with Python `str.lower` on every character
of the embedded keyword lists and of the concrete inputs used below. -/
def charLower (c : Char) : Char :=
  if 65 ≤ c.toNat ∧ c.toNat ≤ 90 then Char.ofNat (c.toNat + 32)
  else if 192 ≤ c.toNat ∧ c.toNat ≤ 222 ∧ c.toNat ≠ 215 then Char.ofNat (c.toNat + 32)
  else if c.toNat = 376 then Char.ofNat 255
  else c

/-- Python `str.lower`. -/
def lowerStr (s : Str) : Str := s.map charLower

/-- Python `str.strip`. -/
def stripStr (s : Str) : Str :=
  ((s.dropWhile isSpaceC).reverse.dropWhile isSpaceC).reverse

/-- Python `needle in hay` (substring containment), via prefix checks. -/
def isPrefixL : Str → Str → Bool
  | [], _ => true
  | _ :: _, [] => false
  | a :: as, b :: bs => a == b && isPrefixL as bs

/-- Python `needle in hay`: some suffix of `hay` starts with `needle`. -/
def containsSub (needle : Str) : Str → Bool
  | [] => isPrefixL needle []
  | c :: rest => isPrefixL needle (c :: rest) || containsSub needle rest

/-- Scanner for `re.split(r'[.!?]+\s+', text)`: a split happens at each
maximal run of `[.!?]` that is immediately followed by at least one
whitespace character; the punctuation run and the whitespace run are
consumed.  One-character-at-a-time state machine: `pend` holds a pending
punctuation run (reversed) that may yet become a match, `cur` the current
fragment (reversed), and `skip` is true while consuming the whitespace run
of a completed match. -/
def splitGo : Str → Str → Str → Bool → List Str
  | [], pend, cur, _ => [(pend ++ cur).reverse]
  | c :: rest, pend, cur, skip =>
    if skip then
      if isSpaceC c then splitGo rest [] [] true
      else if isPunctC c then splitGo rest [c] [] false
      else splitGo rest [] [c] false
    else if isPunctC c then
      splitGo rest (c :: pend) cur false
    else if isSpaceC c then
      if pend.isEmpty then splitGo rest [] (c :: cur) false
      else cur.reverse :: splitGo rest [] [] true
    else
      splitGo rest [] (c :: (pend ++ cur)) false

/-- The raw fragments of `re.split(r'[.!?]+\s+', text)`. -/
def rawSplit (text : Str) : List Str := splitGo text [] [] false

/-- The source `SmartSummarizer._split_sentences`: regex split on
`[.!?]+\s+`, then strip each fragment and keep those longer than 20
characters. -/
def split_sentences (text : Str) : List Str :=
  ((rawSplit text).map stripStr).filter (fun s => 20 < s.length)

/-- Scanner for `re.findall(r'\b\w+\b', s)`: the maximal runs of word
characters. -/
def tokensGo (s : Str) (acc : Str) : List Str :=
  match s with
  | [] => if acc.isEmpty then [] else [acc.reverse]
  | c :: rest =>
    if isWordChar c then tokensGo rest (c :: acc)
    else if acc.isEmpty then tokensGo rest []
    else acc.reverse :: tokensGo rest []

/-- Tokenization `re.findall(r'\b\w+\b', s)` used by `_score_sentences`. -/
def tokensOf (s : Str) : List Str := tokensGo s []

/-- The source `SmartSummarizer.hebrew_stopwords` literal (the source file is
double-encoded UTF-8, so the runtime literals are these mojibake strings;
they are reproduced exactly, by code point). -/
def hebrew_stopwords : List Str :=
  [ "\u00D7\u00A9\u00D7\u0153".data, "\u00D7\u00D7\u00AA".data,
    "\u00D7\u00A2\u00D7\u0153".data, "\u00D7\u00D7\u0153".data,
    "\u00D7\u00A2\u00D7".data, "\u00D7\u203A\u00D7\u0153".data,
    "\u00D7\u203A\u00D7\u2122".data, "\u00D7\u00D7".data,
    "\u00D7\u0153\u00D7".data, "\u00D7\u00D7\u2022".data,
    "\u00D7\u2019\u00D7".data, "\u00D7\u00A8\u00D7\u00A7".data,
    "\u00D7\u00D7\u2018\u00D7\u0153".data, "\u00D7\u00D7\u0161".data,
    "\u00D7\u203A\u00D7\u0161".data, "\u00D7\u203A\u00D7\u0178".data,
    "\u00D7\u0153\u00D7\u203A\u00D7\u0178".data, "\u00D7\u00D7\u2013".data,
    "\u00D7\u00A9\u00D7".data, "\u00D7\u00A4\u00D7\u201D".data,
    "\u00D7\u2013\u00D7\u201D".data, "\u00D7\u2013\u00D7\u2022".data,
    "\u00D7\u201D\u00D7\u2022\u00D7".data, "\u00D7\u201D\u00D7\u2122\u00D7".data ]

/-- The word-frequency table of `_score_sentences`: tokens of the lowered
full text that are not stopwords and are longer than 2 characters. -/
def freqTokens (text : Str) : List Str :=
  (tokensOf (lowerStr text)).filter
    (fun w => !(hebrew_stopwords.contains w) && 2 < w.length)

/-- Dictionary lookup `word_freq.get(word, 0)`. -/
def wordFreq (text : Str) (w : Str) : Nat := (freqTokens text).count w

/-- The frequency-based part of a sentence's score: the sum of the full-text
frequencies of the sentence's tokens (absent tokens contribute 0, exactly
like the `if word in word_freq` guard in the source). -/
def sentenceBase (text s : Str) : Nat :=
  ((tokensOf (lowerStr s)).map (fun w => wordFreq text w)).sum

/-- A sentence's final score in `_score_sentences`: the frequency sum, times
1.5 when the sentence index is in the first 30% of the document
(`i < n * 0.3`, exactly `10 * i < 3 * n`), times 1.2 when the sentence
length is strictly between 20 and 200.  Scores are represented multiplied by
100, which makes both decimal multipliers exact integer operations; every
score comparison and zero test is invariant under this positive scaling. -/
def sentenceScore (text : Str) (n i : Nat) (s : Str) : Nat :=
  let base := sentenceBase text s * 100
  let base2 := if 10 * i < 3 * n then base * 3 / 2 else base
  if 20 < s.length ∧ s.length < 200 then base2 * 6 / 5 else base2

/-- One entry of the scored-sentences list: the tuple
`(sentence, score, index)` built by `_score_sentences`. -/
structure Scored where
  text : Str
  score : Nat
  idx : Nat
deriving DecidableEq

/-- The `for i, sentence in enumerate(sentences)` loop of
`_score_sentences`, carrying the running index. -/
def scoreGo (text : Str) (n : Nat) : Nat → List Str → List Scored
  | _, [] => []
  | i, s :: rest => ⟨s, sentenceScore text n i s, i⟩ :: scoreGo text n (i + 1) rest

/-- The source `SmartSummarizer._score_sentences`. -/
def score_sentences (text : Str) (sentences : List Str) : List Scored :=
  scoreGo text sentences.length 0 sentences

/-- The truncation marker `"..."` appended by `summarize`. -/
def ellipsisStr : Str := ['.', '.', '.']

/-- Python `'. '.join`. -/
def joinDotSp (l : List Str) : Str := List.intercalate ['.', ' '] l

/-- Stable insertion into a list sorted by `le`: the new element goes before
the first existing element it compares `le` to, hence before equal keys. -/
def insertLe (le : α → α → Bool) (a : α) : List α → List α
  | [] => [a]
  | b :: l => if le a b then a :: b :: l else b :: insertLe le a l

/-- Stable sort by the total preorder `le`.  A stable sort's output is
uniquely determined by the comparator and the input order, so this models
Python's stable `sorted` exactly. -/
def sortBy (le : α → α → Bool) : List α → List α
  | [] => []
  | x :: xs => insertLe le x (sortBy le xs)

/-- The selection step of `summarize`: stable sort by score descending
(Python's `sorted(..., reverse=True)` is stable), take the first 3, then
stable sort the picks by original index ascending. -/
def top_sentences (scored : List Scored) : List Scored :=
  sortBy (fun a b => decide (a.idx ≤ b.idx))
    ((sortBy (fun a b => decide (b.score ≤ a.score)) scored).take 3)

/-- The source `Config.MAX_SUMMARY_LENGTH` default (300). -/
def MAX_SUMMARY_LENGTH : Nat := 300

/-- The source `SmartSummarizer.summarize`: split into usable sentences; if
at most 3 remain, return their join unchanged; otherwise score, select the
top 3, reorder by original position, join with `'. '`, and if the join
exceeds `max_length` cut it at `max_length` characters and append `"..."`.
The `except` fallback of the source is unreachable in this total embedding
(none of the modelled operations raises). -/
def summarize (text : Str) (max_length : Nat) : Str :=
  let sentences := split_sentences text
  if sentences.length ≤ 3 then joinDotSp sentences
  else
    let selected := top_sentences (score_sentences text sentences)
    let summary := joinDotSp (selected.map Scored.text)
    if max_length < summary.length then summary.take max_length ++ ellipsisStr
    else summary

/-- The source `OptimizedReadLaterBot.categories` mapping, in declaration
order (the source file is double-encoded UTF-8, so the runtime literals are
these mojibake strings; they are reproduced exactly, by code point). -/
def categoriesList : List (Str × List Str) :=
  [
    ("\u00D7\u02DC\u00D7\u203A\u00D7\u00A0\u00D7\u2022\u00D7\u0153\u00D7\u2022\u00D7\u2019\u00D7\u2122\u00D7\u201D".data,
    [ "\u00D7\u02DC\u00D7\u203A\u00D7\u00A0\u00D7\u2022\u00D7\u0153\u00D7\u2022\u00D7\u2019\u00D7\u2122\u00D7\u201D".data,
      "\u00D7\u00D7\u00A4\u00D7\u0153\u00D7\u2122\u00D7\u00A7\u00D7\u00A6\u00D7\u2122\u00D7\u201D".data,
      "\u00D7\u00A1\u00D7\u00D7\u00D7\u00A8\u00D7\u02DC\u00D7\u00A4\u00D7\u2022\u00D7\u0178".data,
      "\u00D7\u00D7\u2014\u00D7\u00A9\u00D7\u2018".data,
      "\u00D7\u00D7\u2122\u00D7\u00A0\u00D7\u02DC\u00D7\u00A8\u00D7\u00A0\u00D7\u02DC".data,
      "\u00D7\u00A1\u00D7\u2122\u00D7\u2122\u00D7\u2018\u00D7\u00A8".data,
      "AI".data,
      "\u00D7\u2018\u00D7\u2122\u00D7\u00A0\u00D7\u201D \u00D7\u00D7\u0153\u00D7\u00D7\u203A\u00D7\u2022\u00D7\u00AA\u00D7\u2122\u00D7\u00AA".data,
      "blockchain".data,
      "crypto".data ]),
    ("\u00D7\u2018\u00D7\u00A8\u00D7\u2122\u00D7\u00D7\u2022\u00D7\u00AA".data,
    [ "\u00D7\u2018\u00D7\u00A8\u00D7\u2122\u00D7\u00D7\u2022\u00D7\u00AA".data,
      "\u00D7\u00A8\u00D7\u00A4\u00D7\u2022\u00D7\u00D7\u201D".data,
      "\u00D7\u00D7\u2014\u00D7\u00A7\u00D7\u00A8".data,
      "\u00D7\u02DC\u00D7\u2122\u00D7\u00A4\u00D7\u2022\u00D7\u0153".data,
      "\u00D7\u00AA\u00D7\u2013\u00D7\u2022\u00D7\u00A0\u00D7\u201D".data,
      "\u00D7\u00A1\u00D7\u00A4\u00D7\u2022\u00D7\u00A8\u00D7\u02DC".data,
      "\u00D7\u203A\u00D7\u2022\u00D7\u00A9\u00D7\u00A8".data,
      "\u00D7\u00A4\u00D7\u00A1\u00D7\u2122\u00D7\u203A\u00D7\u2022\u00D7\u0153\u00D7\u2022\u00D7\u2019\u00D7\u2122\u00D7\u201D".data ]),
    ("\u00D7\u203A\u00D7\u0153\u00D7\u203A\u00D7\u0153\u00D7\u201D".data,
    [ "\u00D7\u203A\u00D7\u0153\u00D7\u203A\u00D7\u0153\u00D7\u201D".data,
      "\u00D7\u203A\u00D7\u00A1\u00D7\u00A4\u00D7\u2122\u00D7".data,
      "\u00D7\u201D\u00D7\u00A9\u00D7\u00A7\u00D7\u00A2\u00D7\u2022\u00D7\u00AA".data,
      "\u00D7\u2018\u00D7\u2022\u00D7\u00A8\u00D7\u00A1\u00D7\u201D".data,
      "\u00D7\u00A2\u00D7\u00A1\u00D7\u00A7\u00D7\u2122\u00D7".data,
      "\u00D7\u2014\u00D7\u2018\u00D7\u00A8\u00D7\u201D".data,
      "\u00D7\u00A1\u00D7\u02DC\u00D7\u00D7\u00A8\u00D7\u02DC\u00D7\u00D7\u00A4".data,
      "\u00D7\u00D7\u00A0\u00D7\u2122\u00D7\u2022\u00D7\u00AA".data ]),
    ("\u00D7\u00A4\u00D7\u2022\u00D7\u0153\u00D7\u2122\u00D7\u02DC\u00D7\u2122\u00D7\u00A7\u00D7\u201D".data,
    [ "\u00D7\u00A4\u00D7\u2022\u00D7\u0153\u00D7\u2122\u00D7\u02DC\u00D7\u2122\u00D7\u00A7\u00D7\u201D".data,
      "\u00D7\u00D7\u00D7\u00A9\u00D7\u0153\u00D7\u201D".data,
      "\u00D7\u203A\u00D7\u00A0\u00D7\u00A1\u00D7\u00AA".data,
      "\u00D7\u2018\u00D7\u2014\u00D7\u2122\u00D7\u00A8\u00D7\u2022\u00D7\u00AA".data,
      "\u00D7\u00D7\u201C\u00D7\u2122\u00D7\u00A0\u00D7\u201D".data,
      "\u00D7\u2014\u00D7\u2022\u00D7\u00A7".data,
      "\u00D7\u00D7\u201C\u00D7\u2122\u00D7\u00A0\u00D7\u2122\u00D7\u2022\u00D7\u00AA".data ]),
    ("\u00D7\u201D\u00D7\u00A9\u00D7\u00A8\u00D7\u00D7\u201D".data,
    [ "\u00D7\u201D\u00D7\u00A9\u00D7\u00A8\u00D7\u00D7\u201D".data,
      "\u00D7\u00D7\u2022\u00D7\u02DC\u00D7\u2122\u00D7\u2018\u00D7\u00A6\u00D7\u2122\u00D7\u201D".data,
      "\u00D7\u00D7\u2122\u00D7\u00A9\u00D7\u2122\u00D7\u2022\u00D7\u00AA".data,
      "\u00D7\u201D\u00D7\u00A6\u00D7\u0153\u00D7\u2014\u00D7\u201D".data,
      "\u00D7\u2014\u00D7\u0153\u00D7\u2022\u00D7\u00D7\u2022\u00D7\u00AA".data,
      "\u00D7\u00D7\u02DC\u00D7\u00A8\u00D7\u2022\u00D7\u00AA".data,
      "\u00D7\u00A4\u00D7\u2122\u00D7\u00AA\u00D7\u2022\u00D7\u2014 \u00D7\u00D7\u2122\u00D7\u00A9\u00D7\u2122".data ]) ]

/-- The category literal returned by `detect_category` when no keyword of any
category occurs. -/
def defaultCategory : Str := "\u00D7\u203A\u00D7\u0153\u00D7\u0153\u00D7\u2122".data

/-- One keyword test of `detect_category`: `keyword.lower() in full_text`. -/
def keywordMatch (ft : Str) (kw : Str) : Bool := containsSub (lowerStr kw) ft

/-- The `for category, keywords in self.categories.items()` loop of
`detect_category`: return the first category with any matching keyword. -/
def detectGo : List (Str × List Str) → Str → Str
  | [], _ => defaultCategory
  | (c, kws) :: rest, ft => if kws.any (keywordMatch ft) then c else detectGo rest ft

/-- The source `OptimizedReadLaterBot.detect_category`: lower the title, a
space, and the first 500 characters of the body, then scan the category
mapping in declaration order. -/
def detect_category (title text : Str) : Str :=
  detectGo categoriesList (lowerStr (title ++ [' '] ++ text.take 500))

/-- Modelled from the spec (claim C2): the number of occurrences of `needle`
in `hay`, counted as the start positions where `needle` matches. -/
def countOccur (needle : Str) : Str → Nat
  | [] => 0
  | c :: rest => (if isPrefixL needle (c :: rest) then 1 else 0) + countOccur needle rest

/-- Modelled from the spec (claim C2): a category's score is 3 times the
case-insensitive keyword occurrence count in the title plus the count in the
bounded body prefix. -/
def specScore (title bodyPre : Str) (kws : List Str) : Nat :=
  (kws.map (fun kw =>
    3 * countOccur (lowerStr kw) (lowerStr title)
      + countOccur (lowerStr kw) (lowerStr bodyPre))).sum

/-- Modelled from the spec (claim C2): fold keeping the best-scoring
category; only a strictly greater score replaces, so the first-declared
category wins ties. -/
def bestGo : List (Str × Nat) → Str × Nat → Str × Nat
  | [], best => best
  | c :: rest, best => bestGo rest (if best.2 < c.2 then c else best)

/-- Modelled from the spec (claim C2): the categorizer the claim describes,
returning the category with the highest nonzero weighted score,
first-declared winning ties, and the default category when all scores are
zero. -/
def categorize_spec (title body : Str) : Str :=
  let scored := categoriesList.map (fun c => (c.1, specScore title (body.take 500) c.2))
  match scored with
  | [] => defaultCategory
  | h :: t =>
    let best := bestGo t h
    if best.2 = 0 then defaultCategory else best.1

/-- Outcome of one attempt inside `extract_with_retry`: an HTTP 200 response
whose parse result is returned directly (even when it is `None`), a non-200
status, a timeout, or another exception.  The source logs the latter three
differently but then treats them identically. -/
inductive AttemptOutcome (alpha : Type) where
  | status200 (parsed : Option alpha)
  | httpOther (code : Nat)
  | timeoutErr
  | otherExn

/-- Observable trace of `extract_with_retry`: how many attempts ran, which
backoff sleeps happened (in seconds, in order), and the returned value. -/
structure RetryTrace (alpha : Type) where
  attempts : Nat
  sleeps : List Nat
  result : Option alpha
deriving Repr

/-- The `for attempt in range(Config.MAX_RETRIES)` loop of
`extract_with_retry`: on a 200 response return the parse result immediately;
otherwise sleep `2 ** attempt` seconds unless this was the last attempt; after
the loop return `None`. -/
def retryGo (fetch : Nat → AttemptOutcome alpha) (maxRetries : Nat) :
    List Nat → Nat → List Nat → RetryTrace alpha
  | [], n, sleeps => ⟨n, sleeps.reverse, none⟩
  | a :: rest, n, sleeps =>
    match fetch a with
    | .status200 parsed => ⟨n + 1, sleeps.reverse, parsed⟩
    | _ =>
      retryGo fetch maxRetries rest (n + 1)
        (if a < maxRetries - 1 then 2 ^ a :: sleeps else sleeps)

/-- The source `ContentExtractor.extract_with_retry`, with the per-attempt
network outcome supplied by the oracle `fetch`. -/
def extract_with_retry (fetch : Nat → AttemptOutcome alpha) (maxRetries : Nat) :
    RetryTrace alpha :=
  retryGo fetch maxRetries (List.range maxRetries) 0 []

/-- The source `Config.MAX_RETRIES` default (3). -/
def MAX_RETRIES : Nat := 3

/-- Python `chr(10) * 2` join, i.e. the `'\n\n'.join` of the paragraph
fallback. -/
def joinPar (l : List Str) : Str := List.intercalate ['\n', '\n'] l

/-- The paragraphs kept by the fallback branch of
`ContentExtractor._extract_content`: each `<p>` text, stripped, kept when
longer than 20 characters. -/
def keptParagraphs (ps : List Str) : List Str :=
  (ps.map stripStr).filter (fun p => 20 < p.length)

/-- The paragraph-fallback branch of `ContentExtractor._extract_content`,
reached when no content selector matched; the input is the list of texts of
the document's `<p>` elements.  Returns the `'\n\n'`-join of the kept
paragraphs iff that join is longer than 200 characters, else `None`. -/
def paragraph_fallback (ps : List Str) : Option Str :=
  let text := joinPar (keptParagraphs ps)
  if 200 < text.length then some text else none

/-- One row of the `articles` table of `bot.py` (`date_saved` modelled as a
sortable number). -/
structure Row where
  id : Nat
  user_id : Nat
  url : Str
  title : Str
  summary : Str
  full_text : Str
  category : Str
  tags : Str
  keywords : Str
  date_saved : Nat
deriving DecidableEq

/-- The source `ReadLaterBot.delete_article`:
`DELETE FROM articles WHERE id = ? AND user_id = ?`, modelled as keeping
exactly the rows the `WHERE` clause does not select. -/
def delete_article (db : List Row) (article_id uid : Nat) : List Row :=
  db.filter (fun r => !(r.id == article_id && r.user_id == uid))

/-- The `WHERE` clause of `get_user_articles`: `user_id = ?`, with the
optional `AND category = ?`. -/
def listPred (uid : Nat) (category : Option Str) (r : Row) : Bool :=
  r.user_id == uid &&
    (match category with
     | some c => r.category == c
     | none => true)

/-- The source `ReadLaterBot.get_user_articles`: select the user's rows
(optionally restricted to one category), ordered by `date_saved DESC`. -/
def get_user_articles (db : List Row) (uid : Nat) (category : Option Str) :
    List Row :=
  sortBy (fun a b => decide (b.date_saved <= a.date_saved))
    (db.filter (listPred uid category))

/-- One search term's disjunction in `search_articles`:
`LOWER(title) LIKE ? OR LOWER(summary) LIKE ? OR LOWER(keywords) LIKE ? OR
LOWER(tags) LIKE ?` with pattern `%term%`, i.e. substring containment in the
lowered field. -/
def termMatches (r : Row) (term : Str) : Bool :=
  containsSub term (lowerStr r.title) || containsSub term (lowerStr r.summary) ||
    containsSub term (lowerStr r.keywords) || containsSub term (lowerStr r.tags)

/-- Scanner for Python `str.split()` (no argument): maximal nonempty
whitespace-separated words. -/
def splitWsGo (s : Str) (acc : Str) : List Str :=
  match s with
  | [] => if acc.isEmpty then [] else [acc.reverse]
  | c :: rest =>
    if isSpaceC c then
      if acc.isEmpty then splitWsGo rest []
      else acc.reverse :: splitWsGo rest []
    else splitWsGo rest (c :: acc)

/-- Python `str.split()` with no argument. -/
def splitWs (s : Str) : List Str := splitWsGo s []

/-- The source `ReadLaterBot.search_articles`: split the lowered query into
terms; a row matches when it belongs to the user and every term occurs in at
least one of its four searched fields; ordered by `date_saved DESC`. -/
def search_articles (db : List Row) (uid : Nat) (q : Str) : List Row :=
  sortBy (fun a b => decide (b.date_saved <= a.date_saved))
    (db.filter (fun r => r.user_id == uid && (splitWs (lowerStr q)).all (termMatches r)))

/-- Python `len(text.split())`, the word count of `button_callback`. -/
def word_count (s : Str) : Nat := (splitWs s).length

/-- The source reading-time computation in `button_callback` of `bot.py`:
`max(1, word_count // 200)`, with `//` the flooring integer division. -/
def reading_time (full_text : Str) : Nat := max 1 (word_count full_text / 200)

/-- Modelled from the spec (claim C9): Python `round(n / d)` on a nonnegative
exact ratio, i.e. round-half-to-even. -/
def roundHalfEven (n d : Nat) : Nat :=
  if 2 * (n % d) < d then n / d
  else if d < 2 * (n % d) then n / d + 1
  else if n / d % 2 = 0 then n / d else n / d + 1

/-- Modelled from the spec (claim C9): the claimed reading-time formula
`max(1, round(word_count / 200))`. -/
def claimReadingTime (wc : Nat) : Nat := max 1 (roundHalfEven wc 200)

/-- The summary cache of `OptimizedReadLaterBot`, as an association list.
The key `str(hash(text[:1000]))` is modelled by the first-1000-character
prefix itself: Python's `hash` maps equal strings to equal keys, which is the
only property the cache relies on (hash collisions between distinct prefixes
and TTL eviction are not modelled). -/
abbrev Cache := List (Str × Str)

/-- Cache membership test plus read, `text_hash in self.article_cache`
followed by `self.article_cache[text_hash]`. -/
def cacheLookup (c : Cache) (k : Str) : Option Str :=
  (c.find? (fun p => p.1 == k)).map Prod.snd

/-- The source `OptimizedReadLaterBot.summarize_text`: key the cache by the
first 1000 characters of the input; on a hit return the cached summary and
leave the cache unchanged; on a miss summarize the full text with the default
maximum length and store the result under the key. -/
def summarize_text (cache : Cache) (text : Str) : Str × Cache :=
  match cacheLookup cache (text.take 1000) with
  | some s => (s, cache)
  | none =>
    (summarize text MAX_SUMMARY_LENGTH, (text.take 1000, summarize text MAX_SUMMARY_LENGTH) :: cache)

/-- Modelled from the spec (claim C7): the output the claimed fallback would
produce, the first two raw sentences joined and truncated to `max_length`. -/
def claimSummaryFallback (text : Str) (max_length : Nat) : Str :=
  (joinDotSp ((rawSplit text).take 2)).take max_length

/-- Concrete input for claim C1: a single 30-character sentence with no
sentence-ending punctuation. -/
def texC1 : Str := "aaaaaaaaaaaaaaaaaaaaaaaaaaaaaa".data

/-- Concrete input for claim C8: exactly three usable sentences whose join
is 76 characters long. -/
def texC8 : Str :=
  "aaaa bbbb cccc dddd eeee. ffff gggg hhhh iiii jjjj. kkkk llll mmmm nnnn oooo".data

/-- Concrete input for claim C7: four usable sentences all of whose words
have at most 2 characters, so the frequency table is empty and every
sentence scores 0. -/
def texC7 : Str :=
  "aa bb cc dd ee ff gg hh. ii jj kk ll mm nn oo pp. qq rr ss tt uu vv ww xx. yy zz ab cd ef gh ij kl".data

/-- The first keyword (and name) of the second-declared category of
`categoriesList` (the double-encoded form of the Hebrew word for health). -/
def healthKeyword : Str :=
  "\u00D7\u2018\u00D7\u00A8\u00D7\u2122\u00D7\u00D7\u2022\u00D7\u00AA".data

/-- The name of the first-declared category of `categoriesList` (the
double-encoded form of the Hebrew word for technology). -/
def techCategory : Str :=
  "×˜×›× ×•×œ×•×’×™×”".data

/-- Concrete title for claim C2: the health keyword three times. -/
def titleC2 : Str := healthKeyword ++ [' '] ++ healthKeyword ++ [' '] ++ healthKeyword

/-- Concrete body for claim C2: one occurrence of a technology keyword. -/
def bodyC2 : Str := "crypto".data

/-- Concrete input for claim C5: a paragraph of exactly 21 characters. -/
def paraShort : Str := "abcdefghijklmnopqrstu".data

/-- Concrete input for claim C5's witness: a paragraph of 70 characters. -/
def paraLong : Str :=
  "abcdefghij klmnopqrst uvwxyz abc defghijklm nopqrstuvw xyzabcdefg hij".data

/-- Concrete input for claim C9: a body of exactly 300 one-letter words. -/
def body300 : Str := List.intercalate [' '] (List.replicate 300 ['a'])

/-- Concrete input for claim C10: a 1000-character block shared by the two
cache-colliding bodies. -/
def sharedHead : Str := List.replicate 1000 'a'

/-- Concrete input for claim C10: first body, 1006 characters. -/
def cacheT1 : Str := sharedHead ++ " bb cc".data

/-- Concrete input for claim C10: second body, agreeing with `cacheT1` on the
first 1000 characters and differing after them. -/
def cacheT2 : Str := sharedHead ++ " dd ee".data

/-! ## Helper lemmas -/

/-- The scored list projects back to the sentence list. -/
theorem scoreGo_map_text (text : Str) (n : Nat) (i : Nat) (l : List Str) :
    (scoreGo text n i l).map Scored.text = l := by
  induction l generalizing i with
  | nil => rfl
  | cons s rest ih => simp [scoreGo, ih]

/-- The indices stored in the scored list are consecutive from `i`. -/
theorem scoreGo_map_idx (text : Str) (n : Nat) (i : Nat) (l : List Str) :
    (scoreGo text n i l).map Scored.idx = List.range' i l.length := by
  induction l generalizing i with
  | nil => rfl
  | cons s rest ih => simp [scoreGo, List.range'_succ, ih]

/-- Every scored entry records the sentence found at its stored index. -/
theorem scoreGo_lookup (text : Str) (n : Nat) (l : List Str) (i : Nat)
    (e : Scored) (h : e ∈ scoreGo text n i l) :
    i ≤ e.idx ∧ l[e.idx - i]? = some e.text := by
  induction l generalizing i with
  | nil => simp [scoreGo] at h
  | cons s rest ih =>
    simp only [scoreGo, List.mem_cons] at h
    rcases h with h | h
    · subst h
      simp
    · obtain ⟨h1, h2⟩ := ih (i + 1) h
      refine ⟨by omega, ?_⟩
      have hidx : e.idx - i = (e.idx - (i + 1)) + 1 := by omega
      rw [hidx]
      simpa using h2

/-- The scored list has strictly increasing stored indices. -/
theorem scored_pairwise_idx (text : Str) (sentences : List Str) :
    (score_sentences text sentences).Pairwise (fun a b => a.idx < b.idx) := by
  have h := List.pairwise_lt_range' 0 sentences.length
  rw [← scoreGo_map_idx text sentences.length 0 sentences] at h
  exact (List.pairwise_map).mp h

/-- The stored indices of the scored list are pairwise distinct. -/
theorem scored_nodup_idx (text : Str) (sentences : List Str) :
    ((score_sentences text sentences).map Scored.idx).Nodup := by
  rw [score_sentences, scoreGo_map_idx]
  exact List.nodup_range' 0 sentences.length

/-- Inserting with `insertLe` is a permutation of consing. -/
theorem insertLe_perm (le : α → α → Bool) (a : α) (l : List α) :
    List.Perm (insertLe le a l) (a :: l) := by
  induction l with
  | nil => exact List.Perm.refl _
  | cons b t ih =>
    rw [insertLe]
    by_cases h : le a b = true
    · rw [if_pos h]
    · rw [if_neg h]
      exact (ih.cons b).trans (List.Perm.swap a b t)

/-- Sorting with `sortBy` is a permutation. -/
theorem sortBy_perm (le : α → α → Bool) (l : List α) : List.Perm (sortBy le l) l := by
  induction l with
  | nil => exact List.Perm.refl _
  | cons x xs ih => exact (insertLe_perm le x (sortBy le xs)).trans (ih.cons x)

/-- Membership is preserved by `sortBy`. -/
theorem mem_sortBy {le : α → α → Bool} {a : α} {l : List α} :
    a ∈ sortBy le l ↔ a ∈ l := (sortBy_perm le l).mem_iff

/-- Inserting into a sorted list keeps it sorted, for a transitive total
comparator. -/
theorem insertLe_sorted (le : α → α → Bool)
    (htrans : ∀ x y z, le x y = true → le y z = true → le x z = true)
    (htotal : ∀ x y, le x y = false → le y x = true) (a : α) (l : List α)
    (h : l.Pairwise (fun x y => le x y = true)) :
    (insertLe le a l).Pairwise (fun x y => le x y = true) := by
  induction l with
  | nil => simp [insertLe]
  | cons b t ih =>
    rw [insertLe]
    by_cases hab : le a b = true
    · rw [if_pos hab]
      refine List.Pairwise.cons ?_ h
      intro x hx
      rcases List.mem_cons.mp hx with rfl | hx
      · exact hab
      · exact htrans a b x hab (List.rel_of_pairwise_cons h hx)
    · rw [if_neg hab]
      refine List.Pairwise.cons ?_ (ih h.of_cons)
      intro x hx
      rcases List.mem_cons.mp ((insertLe_perm le a t).mem_iff.mp hx) with heq | hx
      · rw [heq]
        exact htotal a b (by simpa using hab)
      · exact List.rel_of_pairwise_cons h hx

/-- The output of `sortBy` is sorted, for a transitive total comparator. -/
theorem sortBy_sorted (le : α → α → Bool)
    (htrans : ∀ x y z, le x y = true → le y z = true → le x z = true)
    (htotal : ∀ x y, le x y = false → le y x = true) (l : List α) :
    (sortBy le l).Pairwise (fun x y => le x y = true) := by
  induction l with
  | nil => simp [sortBy]
  | cons x xs ih => exact insertLe_sorted le htrans htotal x _ ih

/-- Sorting an already sorted list changes nothing (stability on equal
keys). -/
theorem sortBy_of_sorted (le : α → α → Bool) (l : List α)
    (h : l.Pairwise (fun x y => le x y = true)) : sortBy le l = l := by
  induction l with
  | nil => rfl
  | cons x xs ih =>
    rw [sortBy, ih h.of_cons]
    cases xs with
    | nil => rfl
    | cons y ys =>
      rw [insertLe, if_pos (List.rel_of_pairwise_cons h (List.mem_cons_self y ys))]

/-- Selection only ever returns entries of the scored list. -/
theorem mem_top_sentences {e : Scored} {scored : List Scored}
    (h : e ∈ top_sentences scored) : e ∈ scored := by
  rw [top_sentences, mem_sortBy] at h
  exact mem_sortBy.mp (List.mem_of_mem_take h)

/-- Selection preserves distinctness of the stored indices. -/
theorem top_nodup_idx (scored : List Scored)
    (h : (scored.map Scored.idx).Nodup) :
    ((top_sentences scored).map Scored.idx).Nodup := by
  rw [top_sentences]
  have h1 : ((sortBy (fun a b => decide (b.score ≤ a.score)) scored).map Scored.idx).Nodup :=
    ((sortBy_perm _ scored).map Scored.idx).symm.nodup h
  have h2 : (((sortBy (fun a b => decide (b.score ≤ a.score)) scored).take 3).map Scored.idx).Nodup := by
    rw [List.map_take]
    exact (List.take_sublist 3 _).nodup h1
  exact ((sortBy_perm _ _).map Scored.idx).symm.nodup h2

/-- The second sort of the selection step sorts by stored index. -/
theorem top_sorted_idx (scored : List Scored) :
    (top_sentences scored).Pairwise (fun a b => a.idx ≤ b.idx) := by
  have htrans : ∀ x y z : Scored, decide (x.idx ≤ y.idx) = true →
      decide (y.idx ≤ z.idx) = true → decide (x.idx ≤ z.idx) = true := by
    intro x y z hxy hyz
    simp only [decide_eq_true_eq] at *
    omega
  have htotal : ∀ x y : Scored, decide (x.idx ≤ y.idx) = false →
      decide (y.idx ≤ x.idx) = true := by
    intro x y h
    simp only [decide_eq_false_iff_not, decide_eq_true_eq] at *
    omega
  have hs := sortBy_sorted (fun a b => decide (a.idx ≤ b.idx)) htrans htotal
    ((sortBy (fun a b => decide (b.score ≤ a.score)) scored).take 3)
  rw [top_sentences]
  exact hs.imp (fun hab => by simpa using hab)

/-! ## Claim theorems -/

/-- Claim C6: every list, search and delete operation of the record store
touches only the requesting user's rows: deleting scoped by `(id, user_id)`
leaves the sublist of every other user's rows literally unchanged, and every
row returned by a list or search belongs to the requesting user. -/
theorem record_store_user_scoped (db : List Row) (aid uid : Nat)
    (cat : Option Str) (q : Str) :
    (delete_article db aid uid).filter (fun r => !(r.user_id == uid)) =
      db.filter (fun r => !(r.user_id == uid)) ∧
    (get_user_articles db uid cat).all (fun r => r.user_id == uid) = true ∧
    (search_articles db uid q).all (fun r => r.user_id == uid) = true := by
  refine ⟨?_, ?_, ?_⟩
  · rw [delete_article, List.filter_filter]
    apply List.filter_congr
    intro r _
    cases h : r.user_id == uid <;> simp [h]
  · rw [List.all_eq_true]
    intro r hr
    rw [get_user_articles, mem_sortBy, List.mem_filter] at hr
    have := hr.2
    simp only [listPred, Bool.and_eq_true] at this
    exact this.1
  · rw [List.all_eq_true]
    intro r hr
    rw [search_articles, mem_sortBy, List.mem_filter, Bool.and_eq_true] at hr
    exact hr.2.1

/-- Claim C3 (amended): an always-timing-out fetch with `max_retries = 3`
yields exactly 3 attempts with backoff sleeps of 1 and 2 seconds between
consecutive attempts and none after the last, and the loop falls through to
return `None`. -/
theorem retry_timeout_trace :
    extract_with_retry (fun _ => (AttemptOutcome.timeoutErr : AttemptOutcome Unit))
      MAX_RETRIES = ⟨3, [1, 2], none⟩ := by
  rfl

/-- Claim C3 (counterexample to the typed-error part): the final results of
an always-timeout run and an always-HTTP-500 run are the same `None`; the
return value carries no typed `fetch-timeout` error, contrary to the
claim. -/
theorem retry_result_untyped :
    (extract_with_retry (fun _ => (AttemptOutcome.timeoutErr : AttemptOutcome Unit))
        MAX_RETRIES).result =
      (extract_with_retry (fun _ => (AttemptOutcome.httpOther 500 : AttemptOutcome Unit))
        MAX_RETRIES).result ∧
    (extract_with_retry (fun _ => (AttemptOutcome.timeoutErr : AttemptOutcome Unit))
        MAX_RETRIES).result = none := by
  exact ⟨rfl, rfl⟩

/-- Claim C5 (counterexample): three paragraphs, each of stripped length 21
(greater than the claimed 20-character threshold), on which the paragraph
fallback nevertheless returns `None`, because the join is not longer than
200 characters. -/
theorem paragraph_fallback_three_short :
    20 < (stripStr paraShort).length ∧
    paragraph_fallback [paraShort, paraShort, paraShort] = none := by
  exact ⟨by decide, by decide⟩

/-- Claim C5 (amended): with at least 3 kept paragraphs, the fallback
succeeds exactly when the joined kept paragraphs exceed 200 characters; the
extra length condition is what the counterexample forces. -/
theorem paragraph_fallback_succeeds (ps : List Str)
    (h3 : 3 ≤ (keptParagraphs ps).length)
    (hlen : 200 < (joinPar (keptParagraphs ps)).length) :
    paragraph_fallback ps = some (joinPar (keptParagraphs ps)) := by
  rw [paragraph_fallback]
  simp only [if_pos hlen]

/-- Witness for `paragraph_fallback_succeeds` at three 70-character
paragraphs (joined length 214). -/
theorem paragraph_fallback_succeeds_witness :
    3 ≤ (keptParagraphs [paraLong, paraLong, paraLong]).length ∧
    200 < (joinPar (keptParagraphs [paraLong, paraLong, paraLong])).length ∧
    paragraph_fallback [paraLong, paraLong, paraLong] =
      some (joinPar (keptParagraphs [paraLong, paraLong, paraLong])) :=
  ⟨by decide, by decide,
    paragraph_fallback_succeeds [paraLong, paraLong, paraLong] (by decide) (by decide)⟩

/-- Claim C9 (counterexample): a body of exactly 300 whitespace-separated
words, for which the code reports `max(1, 300 // 200) = 1` minute while the
claimed formula `max(1, round(300 / 200))` gives 2 minutes. -/
theorem reading_time_flooring :
    word_count body300 = 300 ∧ reading_time body300 = 1 ∧
    claimReadingTime 300 = 2 := by
  refine ⟨by decide, by decide, by decide⟩

/-- Claim C9 (amended): the reported estimate is
`max(1, word_count // 200)` with flooring division: it is at least 1, and for
bodies of at least 200 words it is the number of complete 200-word blocks. -/
theorem reading_time_characterization (t : Str) :
    1 ≤ reading_time t ∧
    200 * reading_time t ≤ max 200 (word_count t) ∧
    max 200 (word_count t) < 200 * reading_time t + 200 := by
  rw [reading_time]
  omega

/-- Claim C2 (counterexample): a title containing the health keyword three
times and a body containing one technology keyword.  Weighted scoring as
claimed would pick the health category (score 9 against 1), but the code
returns the technology category, because it returns the first declared
category with ANY keyword match and computes no scores at all. -/
theorem detect_category_not_scored :
    detect_category titleC2 bodyC2 = techCategory ∧
    categorize_spec titleC2 bodyC2 = healthKeyword ∧
    techCategory ≠ healthKeyword := by
  refine ⟨by decide, by decide, by decide⟩

/-- Claim C2 (amended): `detect_category` returns the first category, in
declaration order, one of whose keywords occurs case-insensitively in the
lowered concatenation of the title, a space, and the first 500 characters of
the body, and the default category when no category has a match. -/
theorem detect_category_first_match (title text : Str) :
    detect_category title text =
      ((categoriesList.find? (fun c =>
          c.2.any (keywordMatch (lowerStr (title ++ [' '] ++ text.take 500))))).map
        Prod.fst).getD defaultCategory := by
  rw [detect_category]
  generalize lowerStr (title ++ [' '] ++ text.take 500) = ft
  generalize categoriesList = cs
  induction cs with
  | nil => rfl
  | cons c rest ih =>
    obtain ⟨cname, kws⟩ := c
    by_cases h : kws.any (keywordMatch ft) = true
    · simp [detectGo, List.find?, h]
    · have h2 : kws.any (keywordMatch ft) = false := by
        cases hx : kws.any (keywordMatch ft)
        · rfl
        · exact absurd hx h
      simp [detectGo, List.find?, h2, ih]

/-- Claim C1 (counterexample): a single 30-character sentence with
`max_length = 10`: the at-most-three-sentences path returns the join with no
truncation at all, so the output has 30 characters, above the budget even
accounting for the 3-character marker. -/
theorem summarize_untruncated_short_doc :
    summarize texC1 10 = texC1 ∧ 10 + 3 < (summarize texC1 10).length := by
  exact ⟨by decide, by decide⟩

/-- Claim C1 (amended): only when more than three usable sentences are found
is the output bounded, by `max_length + 3` — a raw character cut at
`max_length` plus the ellipsis marker, with no sentence-boundary-preferring
cut; with at most three usable sentences the join is returned untruncated
and can exceed any budget. -/
theorem summarize_length_bound (text : Str) (L : Nat)
    (h : 3 < (split_sentences text).length) :
    (summarize text L).length ≤ L + 3 := by
  have h2 : ¬ (split_sentences text).length ≤ 3 := by omega
  simp only [summarize]
  rw [if_neg h2]
  split
  · simp only [List.length_append, List.length_take, ellipsisStr,
      List.length_cons, List.length_nil]
    omega
  · omega

/-- Witness for `summarize_length_bound` at a four-sentence input. -/
theorem summarize_length_bound_witness :
    3 < (split_sentences texC7).length ∧ (summarize texC7 10).length ≤ 10 + 3 :=
  ⟨by decide, summarize_length_bound texC7 10 (by decide)⟩

/-- Claim C8 (counterexample): an input with exactly three usable sentences
(more than the claimed threshold of two) on which `summarize` still takes the
direct-join path: no scores are computed and the 76-character join is
returned untruncated past `max_length = 50`, which the claimed scoring path
would have truncated. -/
theorem summarize_three_sentences_direct :
    (split_sentences texC8).length = 3 ∧
    summarize texC8 50 = joinDotSp (split_sentences texC8) ∧
    50 + 3 < (summarize texC8 50).length := by
  refine ⟨by decide, by decide, by decide⟩

/-- Claim C8 (amended): the no-scoring direct-join path is taken whenever at
most THREE usable sentences remain (the source threshold is three, not two),
and that path performs no truncation. -/
theorem summarize_direct_path (text : Str) (L : Nat)
    (h : (split_sentences text).length ≤ 3) :
    summarize text L = joinDotSp (split_sentences text) := by
  simp only [summarize]
  rw [if_pos h]

/-- Witness for `summarize_direct_path` at the three-sentence input. -/
theorem summarize_direct_path_witness :
    (split_sentences texC8).length ≤ 3 ∧
    summarize texC8 50 = joinDotSp (split_sentences texC8) :=
  ⟨by decide, summarize_direct_path texC8 50 (by decide)⟩

/-- Claim C7 (counterexample): on `texC7` every sentence scores zero, there
are more than three usable sentences, and yet `summarize` does not return
the claimed fallback of the first two raw sentences truncated to
`max_length`: it proceeds with selection and returns the join of the first
three usable sentences. -/
theorem summarize_zero_scores_no_fallback :
    (score_sentences texC7 (split_sentences texC7)).all
        (fun e => decide (e.score = 0)) = true ∧
    3 < (split_sentences texC7).length ∧
    summarize texC7 300 ≠ claimSummaryFallback texC7 300 := by
  refine ⟨by decide, by decide, by decide⟩

/-- Claim C7 (amended): a zero-score outcome does not trigger any fallback:
when every sentence scores zero and more than three usable sentences exist,
both sorts are stable on the all-equal keys, so `summarize` returns the join
of the first three usable sentences (untruncated when it fits the budget,
as hypothesis `hL` states).  The source's `except` fallback is reachable
only from an internal exception, which none of the embedded total
operations raises. -/
theorem summarize_all_zero_first_three (text : Str) (L : Nat)
    (hz : (score_sentences text (split_sentences text)).all
        (fun e => decide (e.score = 0)) = true)
    (h3 : 3 < (split_sentences text).length)
    (hL : (joinDotSp ((split_sentences text).take 3)).length ≤ L) :
    summarize text L = joinDotSp ((split_sentences text).take 3) := by
  have hid : top_sentences (score_sentences text (split_sentences text)) =
      (score_sentences text (split_sentences text)).take 3 := by
    rw [top_sentences]
    have hall : ∀ e ∈ score_sentences text (split_sentences text), e.score = 0 := by
      rw [List.all_eq_true] at hz
      intro e he
      simpa using hz e he
    have hs1 : (score_sentences text (split_sentences text)).Pairwise
        (fun a b => decide (b.score ≤ a.score) = true) := by
      apply List.pairwise_of_forall_mem_list
      intro a ha b hb
      simp [hall a ha, hall b hb]
    rw [sortBy_of_sorted _ _ hs1]
    have hs2 : ((score_sentences text (split_sentences text)).take 3).Pairwise
        (fun a b => decide (a.idx ≤ b.idx) = true) := by
      have hp := List.Pairwise.sublist (List.take_sublist 3 _)
        (scored_pairwise_idx text (split_sentences text))
      exact hp.imp (fun hlt => decide_eq_true (Nat.le_of_lt hlt))
    rw [sortBy_of_sorted _ _ hs2]
  simp only [summarize]
  rw [if_neg (by omega)]
  rw [hid, List.map_take, score_sentences, scoreGo_map_text]
  rw [if_neg (by omega)]

/-- Witness for `summarize_all_zero_first_three` at the all-zero-score
four-sentence input. -/
theorem summarize_all_zero_first_three_witness :
    ((score_sentences texC7 (split_sentences texC7)).all
        (fun e => decide (e.score = 0)) = true) ∧
    3 < (split_sentences texC7).length ∧
    (joinDotSp ((split_sentences texC7).take 3)).length ≤ 300 ∧
    summarize texC7 300 = joinDotSp ((split_sentences texC7).take 3) :=
  ⟨by decide, by decide, by decide,
    summarize_all_zero_first_three texC7 300 (by decide) (by decide) (by decide)⟩

/-- Claim C4: the selected sentences are emitted in source order: the final
selection of `summarize` has strictly increasing original indices, and each
selected entry carries exactly the sentence found at its stored index in the
split of the source text. -/
theorem summarize_selection_in_source_order (text : Str) :
    (top_sentences (score_sentences text (split_sentences text))).Pairwise
        (fun a b => a.idx < b.idx) ∧
    (top_sentences (score_sentences text (split_sentences text))).all
        (fun e => (split_sentences text)[e.idx]? == some e.text) = true := by
  constructor
  · have hle := top_sorted_idx (score_sentences text (split_sentences text))
    have hnd := top_nodup_idx (score_sentences text (split_sentences text))
      (scored_nodup_idx text (split_sentences text))
    have hne := (List.pairwise_map).mp hnd
    exact (hle.and hne).imp (fun hab => Nat.lt_of_le_of_ne hab.1 hab.2)
  · rw [List.all_eq_true]
    intro e he
    have hm := mem_top_sentences he
    rw [score_sentences] at hm
    have hl := scoreGo_lookup text (split_sentences text).length
      (split_sentences text) 0 e hm
    have hx := hl.2
    simp only [Nat.sub_zero] at hx
    simp [hx]

/-- Claim C10: the cache key of the pipeline-level summarizer depends on only
the first 1000 characters of the input, so two bodies agreeing on that
prefix collide: summarizing the first and then the second returns the first
body's summary both times, regardless of the summarizer's output on the
second body. -/
theorem summarize_text_prefix_cached (t1 t2 : Str)
    (h : t1.take 1000 = t2.take 1000) :
    (summarize_text [] t1).1 = summarize t1 MAX_SUMMARY_LENGTH ∧
    (summarize_text (summarize_text [] t1).2 t2).1 =
      summarize t1 MAX_SUMMARY_LENGTH := by
  constructor
  · rfl
  · show (summarize_text [(t1.take 1000, summarize t1 MAX_SUMMARY_LENGTH)] t2).1 = _
    simp only [summarize_text]
    rw [← h]
    simp [cacheLookup, List.find?]

/-- Witness for `summarize_text_prefix_cached`: two 1006-character bodies
sharing their first 1000 characters and differing afterwards. -/
theorem summarize_text_prefix_cached_witness :
    cacheT1.take 1000 = cacheT2.take 1000 ∧
    (summarize_text [] cacheT1).1 = summarize cacheT1 MAX_SUMMARY_LENGTH ∧
    (summarize_text (summarize_text [] cacheT1).2 cacheT2).1 =
      summarize cacheT1 MAX_SUMMARY_LENGTH := by
  have h : cacheT1.take 1000 = cacheT2.take 1000 := by
    have e1 : cacheT1.take 1000 = sharedHead :=
      List.take_left' (by simp [sharedHead])
    have e2 : cacheT2.take 1000 = sharedHead :=
      List.take_left' (by simp [sharedHead])
    rw [e1, e2]
  exact ⟨h, (summarize_text_prefix_cached cacheT1 cacheT2 h).1,
    (summarize_text_prefix_cached cacheT1 cacheT2 h).2⟩

end SaveArticles
